import Mathlib

/-!
Verification of the wscpp WebSocket client (`src/wsclient.cpp`) against its
natural-language specification.  The C++ code is shallowly embedded: the
transport socket is a script of read events, `client_pimpl::recv`,
`client_pimpl::recv_thread`, `client_pimpl::parse_ws_message`, `client::send`
and the handshake validation of `client_pimpl::send_handshake` become
executable Lean functions over that script, and the claims are settled as
theorems about those functions.
-/

namespace ws

/-- Errno values distinguished by `client_pimpl::recv`: `EWOULDBLOCK` makes the
read loop retry, `ECONNRESET` is treated like a peer close, anything else is
fatal (`throw runtime_error`). -/
inductive ErrCode where
  | wouldBlock : ErrCode
  | connReset : ErrCode
  | other : Nat → ErrCode
deriving DecidableEq, Repr

/-- One event of the socket script: a byte available to read, end-of-stream
(`::recv` returning 0), or an error (`::recv` returning -1 with an errno). -/
inductive SockItem where
  | byte : Nat → SockItem
  | eof : SockItem
  | rerr : ErrCode → SockItem
deriving DecidableEq, Repr

/-- Collect up to `n` consecutive available bytes from the front of the socket
script, stopping early at an `eof`/`rerr` boundary.  Models how a single
`::recv(sock, buf, left, 0)` call returns at most `left` bytes. -/
def takeBytes : Nat → List SockItem → List Nat × List SockItem
  | 0, s => ([], s)
  | _ + 1, [] => ([], [])
  | n + 1, SockItem.byte b :: rest =>
      let (bs, r) := takeBytes n rest
      (b :: bs, r)
  | _ + 1, SockItem.eof :: rest => ([], SockItem.eof :: rest)
  | _ + 1, SockItem.rerr e :: rest => ([], SockItem.rerr e :: rest)

/-- Result of one `::recv` call on the scripted socket. -/
inductive LowResult where
  | bytes : List Nat → List SockItem → LowResult
  | eofR : List SockItem → LowResult
  | errR : ErrCode → List SockItem → LowResult
  | starved : LowResult
deriving DecidableEq, Repr

/-- One `::recv(sock, buf, left, 0)` call: returns an error or end-of-stream if
that is the next scripted event, otherwise delivers between 1 and `left`
available bytes.  `starved` marks running off the end of the script. -/
def lowRecv (left : Nat) : List SockItem → LowResult
  | [] => LowResult.starved
  | SockItem.eof :: rest => LowResult.eofR rest
  | SockItem.rerr e :: rest => LowResult.errR e rest
  | SockItem.byte b :: rest =>
      let (bs, r) := takeBytes (left - 1) rest
      LowResult.bytes (b :: bs) r

/-- Outcome of `client_pimpl::recv`: the requested bytes and the rest of the
script, a clean close (`open = false`, empty string returned), or a fatal
error (`throw runtime_error("recv failed ...")`). -/
inductive RecvOutcome where
  | ok : List Nat → List SockItem → RecvOutcome
  | closed : RecvOutcome
  | fatal : ErrCode → RecvOutcome
  | starved : RecvOutcome
deriving DecidableEq, Repr

/-- The read loop of `client_pimpl::recv` (wsclient.cpp lines 617-665):
iterate `::recv` until `left` reaches 0; on `EWOULDBLOCK` retry, on any other
error break out of the loop (after which `ECONNRESET` is treated as a clean
close and anything else throws); a zero-byte read means the peer closed the
connection (`open = false`, return "").  `fuel` bounds the iterations; every
iteration consumes at least one script item, so `sock.length` suffices. -/
def recvGo (fuel left : Nat) (acc : List Nat) (sock : List SockItem) : RecvOutcome :=
  match fuel with
  | 0 => RecvOutcome.starved
  | fuel + 1 =>
    match lowRecv left sock with
    | LowResult.starved => RecvOutcome.starved
    | LowResult.eofR _ => RecvOutcome.closed
    | LowResult.errR e rest =>
        if e = ErrCode.wouldBlock then recvGo fuel left acc rest
        else if e = ErrCode.connReset then RecvOutcome.closed
        else RecvOutcome.fatal e
    | LowResult.bytes bs rest =>
        if left - bs.length = 0 then RecvOutcome.ok (acc ++ bs) rest
        else recvGo fuel (left - bs.length) (acc ++ bs) rest

/-- `client_pimpl::recv(len)` (wsclient.cpp lines 603-668): a request for 0
bytes is turned into 4096, then the read loop runs until `len` bytes have
accumulated or the connection closes or errors out. -/
def recv (len : Nat) (sock : List SockItem) : RecvOutcome :=
  recvGo (sock.length + 1) (if len = 0 then 4096 else len) [] sock

/-- Modelled from the spec: `wscpp.h` (which declares `enum opcode`) is not
under `src/`.  Per the spec's data model, opcodes are the 4-bit wire values of
RFC 6455 (continuation 0x0, text 0x1, binary 0x2, close 0x8, ping 0x9,
pong 0xA) and non-recognized values map to `invalid`.  `invalid` shares the
wire value 0 with continuation: the spec's own fragmentation example (frames
text/continuation/continuation reassembling with opcode text) requires that a
FIN=0 continuation frame not overwrite the pending opcode in the
`opcode != opcode::invalid` test of `recv_thread`. -/
def opcode_invalid : Nat := 0

/-- Wire opcode of a continuation frame (RFC 6455). -/
def opcode_continuation : Nat := 0

/-- Wire opcode of a text frame. -/
def opcode_text : Nat := 1

/-- Wire opcode of a binary frame. -/
def opcode_binary : Nat := 2

/-- Wire opcode of a close frame. -/
def opcode_close : Nat := 8

/-- Wire opcode of a ping frame. -/
def opcode_ping : Nat := 9

/-- Wire opcode of a pong frame. -/
def opcode_pong : Nat := 10

/-- The frame header built by `client::send` (wsclient.cpp lines 569-601):
first byte `0x80 | (opcode & 0xf)`, then the length field in one of three
width classes, then the four mask-key bytes, which `memset` zeroes. -/
def sendHeader (op len : Nat) : List Nat :=
  if len ≤ 125 then
    [0x80 ||| (op &&& 0xf), 0x80 ||| len, 0, 0, 0, 0]
  else if len < 0x10000 then
    [0x80 ||| (op &&& 0xf), 0xfe, (len &&& 0xff00) >>> 8, len &&& 0xff, 0, 0, 0, 0]
  else
    [0x80 ||| (op &&& 0xf), 0xff,
     (len &&& 0xff00000000000000) >>> 56,
     (len &&& 0xff000000000000) >>> 48,
     (len &&& 0xff0000000000) >>> 40,
     (len &&& 0xff00000000) >>> 32,
     (len &&& 0xff000000) >>> 24,
     (len &&& 0xff0000) >>> 16,
     (len &&& 0xff00) >>> 8,
     len &&& 0xff, 0, 0, 0, 0]

/-- The bytes `client::send` puts on the wire for one frame: the header
(`send_raw(header, ...)`) followed by the payload (`send_raw(payload, ...)`). -/
def send (op : Nat) (payload : List Nat) : List Nat :=
  sendHeader op payload.length ++ payload

/-- The unmasking loop of `recv_thread` (wsclient.cpp lines 743-747):
`payload[i] ^= mask_key[i % 4]`, with `i` starting at the given index. -/
def unmask (key : List Nat) (i : Nat) : List Nat → List Nat
  | [] => []
  | b :: rest => (b ^^^ key.getD (i % 4) 0) :: unmask key (i + 1) rest

/-- Abort conditions while reading one frame. -/
inductive FrameAbort where
  | closed : FrameAbort
  | fatal : ErrCode → FrameAbort
  | starved : FrameAbort
deriving DecidableEq, Repr

/-- `client_pimpl::recv` wrapped for use in the frame-reading chain: a clean
close or fatal error aborts the frame. -/
def recvE (len : Nat) (sock : List SockItem) :
    Except FrameAbort (List Nat × List SockItem) :=
  match recv len sock with
  | RecvOutcome.ok bs rest => Except.ok (bs, rest)
  | RecvOutcome.closed => Except.error FrameAbort.closed
  | RecvOutcome.fatal e => Except.error (FrameAbort.fatal e)
  | RecvOutcome.starved => Except.error FrameAbort.starved

/-- Result of reading one frame in `recv_thread`. -/
inductive FrameResult where
  | ok : Bool → Nat → List Nat → List SockItem → FrameResult
  | closed : FrameResult
  | fatal : ErrCode → FrameResult
  | starved : FrameResult
deriving DecidableEq, Repr

/-- One iteration of the header/payload reading in `recv_thread`
(wsclient.cpp lines 690-747): read the 2-byte header, extract FIN, opcode,
mask bit and 7-bit length; read the 2- or 8-byte extended length if the
length field is 126 or 127; read the 4-byte mask key if the mask bit is set;
read the payload (skipped when the length is 0); XOR the payload with the
mask key if the mask bit was set.  Each `if (!open) break` in the source
corresponds to the `closed` abort here. -/
def readFrame (sock : List SockItem) : FrameResult :=
  let r : Except FrameAbort (Bool × Nat × List Nat × List SockItem) := do
    let (hdr, s1) ← recvE 2 sock
    let b0 := hdr.getD 0 0
    let b1 := hdr.getD 1 0
    let fin : Bool := b0 &&& 0x80 != 0
    let op := b0 &&& 0xf
    let mask : Bool := b1 &&& 0x80 != 0
    let len0 := b1 &&& 0x7f
    let (len, s2) ← (
      if len0 = 126 then do
        let (ext, s) ← recvE 2 s1
        Except.ok (((ext.getD 0 0) <<< 8) ||| ext.getD 1 0, s)
      else if len0 = 127 then do
        let (ext, s) ← recvE 8 s1
        let l := ext.getD 0 0
        let l := (l <<< 8) ||| ext.getD 1 0
        let l := (l <<< 8) ||| ext.getD 2 0
        let l := (l <<< 8) ||| ext.getD 3 0
        let l := (l <<< 8) ||| ext.getD 4 0
        let l := (l <<< 8) ||| ext.getD 5 0
        let l := (l <<< 8) ||| ext.getD 6 0
        let l := (l <<< 8) ||| ext.getD 7 0
        Except.ok (l, s)
      else Except.ok (len0, s1))
    let (mkey, s3) ← (if mask then recvE 4 s2 else Except.ok ([], s2))
    let (payload, s4) ← (if len = 0 then Except.ok ([], s3) else recvE len s3)
    let payload := if mask then unmask mkey 0 payload else payload
    Except.ok (fin, op, payload, s4)
  match r with
  | Except.ok (fin, op, payload, s) => FrameResult.ok fin op payload s
  | Except.error FrameAbort.closed => FrameResult.closed
  | Except.error (FrameAbort.fatal e) => FrameResult.fatal e
  | Except.error FrameAbort.starved => FrameResult.starved

/-- Observable actions of the client: an outbound frame (`parent.send`), an
invocation of the message handler, and the disconnect handler invocation with
its optional captured error. -/
inductive Event where
  | send : Nat → List Nat → Event
  | handler : List Nat → Nat → Event
  | disconn : Option ErrCode → Event
deriving DecidableEq, Repr

/-- `client_pimpl::parse_ws_message` (wsclient.cpp lines 670-686): a close
frame clears `open` and returns without touching the handler; a ping first
sends a pong with the same payload; every non-close message then reaches the
message handler (when one is registered).  Returns the new value of `open`
(assuming it was true on entry) and the emitted events in order. -/
def parse_ws_message (hasHandler : Bool) (op : Nat) (payload : List Nat) :
    Bool × List Event :=
  if op = opcode_close then (false, [])
  else
    let pings := if op = opcode_ping then [Event.send opcode_pong payload] else []
    (true, pings ++ (if hasHandler then [Event.handler payload op] else []))

/-- The fragment-reassembly step at the tail of `recv_thread` (wsclient.cpp
lines 749-758), acting on (`last_opcode`, `payloadbuf`): a non-final frame
records its opcode when it is not `invalid` and appends its payload without
dispatching; a final frame dispatches the accumulated buffer plus its payload
under `last_opcode` when the buffer is non-empty (then clears the buffer), and
otherwise dispatches its own opcode and payload. -/
def reassembleStep (lastOp : Nat) (buf : List Nat) (fin : Bool) (op : Nat)
    (payload : List Nat) : (Nat × List Nat) × Option (Nat × List Nat) :=
  if !fin then
    ((if op ≠ opcode_invalid then op else lastOp, buf ++ payload), none)
  else if buf ≠ [] then
    ((lastOp, []), some (lastOp, buf ++ payload))
  else
    ((lastOp, buf), some (op, payload))

/-- The `while (open)` loop of `client_pimpl::recv_thread` (wsclient.cpp
lines 688-760): read a frame (breaking out as soon as `open` is cleared by a
zero-length read), reassemble, and hand any dispatched message to
`parse_ws_message`; a fatal transport error escapes as an exception, returned
here as the second component.  `fuel` bounds the iterations; each one consumes
at least one script item. -/
def recvThreadGo (hasHandler : Bool) : Nat → Nat → List Nat → List SockItem →
    List Event × Option ErrCode
  | 0, _, _, _ => ([], none)
  | fuel + 1, lastOp, buf, sock =>
    match readFrame sock with
    | FrameResult.closed => ([], none)
    | FrameResult.starved => ([], none)
    | FrameResult.fatal e => ([], some e)
    | FrameResult.ok fin op payload rest =>
      match reassembleStep lastOp buf fin op payload with
      | ((lastOp', buf'), none) => recvThreadGo hasHandler fuel lastOp' buf' rest
      | ((lastOp', buf'), some (dop, dpl)) =>
        let (stillOpen, evs) := parse_ws_message hasHandler dop dpl
        if stillOpen then
          let (evs2, err) := recvThreadGo hasHandler fuel lastOp' buf' rest
          (evs ++ evs2, err)
        else (evs, none)

/-- The background receive task (wsclient.cpp lines 133-146): run
`recv_thread` (with `last_opcode` starting at `invalid` and an empty
`payloadbuf`), capture any exception, clear `open`, and invoke the disconnect
handler once with the captured error. -/
def recvTask (hasHandler : Bool) (sock : List SockItem) : List Event :=
  let (evs, err) := recvThreadGo hasHandler (sock.length + 1) opcode_invalid [] sock
  evs ++ [Event.disconn err]

/-- Rotate a 32-bit word left by `k` bits. -/
def rotl32 (k n : Nat) : Nat :=
  ((n <<< k) ||| (n >>> (32 - k))) % 4294967296

/-- Big-endian 32-bit words from a byte list, four bytes per word. -/
def words16 : List Nat → List Nat
  | b0 :: b1 :: b2 :: b3 :: rest =>
      (((((b0 <<< 8) ||| b1) <<< 8) ||| b2) <<< 8 ||| b3) :: words16 rest
  | _ => []

/-- Big-endian 8-byte encoding of a 64-bit value. -/
def be8 (n : Nat) : List Nat :=
  [n / 72057594037927936 % 256, n / 281474976710656 % 256,
   n / 1099511627776 % 256, n / 4294967296 % 256,
   n / 16777216 % 256, n / 65536 % 256, n / 256 % 256, n % 256]

/-- Big-endian 4-byte encoding of a 32-bit value. -/
def be4 (n : Nat) : List Nat :=
  [n / 16777216 % 256, n / 65536 % 256, n / 256 % 256, n % 256]

/-- Modelled from the spec: `sha1.h` is not under `src/`; the spec's external
interface is `sha1(bytes) -> 20-byte digest`, standard SHA-1 (RFC 3174).
Message padding: append `0x80`, zero bytes up to 56 mod 64, and the 64-bit
big-endian bit length. -/
def sha1Pad (msg : List Nat) : List Nat :=
  msg ++ [0x80] ++ List.replicate ((119 - msg.length % 64) % 64) 0
      ++ be8 (msg.length * 8)

/-- Extend the 16 message-schedule words of a SHA-1 block by `n` more words:
`W[t] = rotl1 (W[t-3] xor W[t-8] xor W[t-14] xor W[t-16])`. -/
def sha1Extend (w : List Nat) : Nat → List Nat
  | 0 => w
  | n + 1 =>
      let t := w.length
      sha1Extend
        (w ++ [rotl32 1 ((w.getD (t - 3) 0) ^^^ (w.getD (t - 8) 0) ^^^
                         (w.getD (t - 14) 0) ^^^ (w.getD (t - 16) 0))]) n

/-- One of the 80 SHA-1 compression rounds. -/
def sha1Round (i w : Nat) : Nat × Nat × Nat × Nat × Nat →
    Nat × Nat × Nat × Nat × Nat
  | (a, b, c, d, e) =>
    let f :=
      if i < 20 then (b &&& c) ||| ((b ^^^ 0xffffffff) &&& d)
      else if i < 40 then b ^^^ c ^^^ d
      else if i < 60 then (b &&& c) ||| (b &&& d) ||| (c &&& d)
      else b ^^^ c ^^^ d
    let k :=
      if i < 20 then 0x5a827999
      else if i < 40 then 0x6ed9eba1
      else if i < 60 then 0x8f1bbcdc
      else 0xca62c1d6
    let temp := (rotl32 5 a + f + e + k + w) % 4294967296
    (temp, a, rotl32 30 b, c, d)

/-- Run SHA-1 rounds `i, i+1, ..., 79` over the schedule `w`. -/
def sha1Rounds (w : List Nat) (st : Nat × Nat × Nat × Nat × Nat) :
    Nat → Nat → Nat × Nat × Nat × Nat × Nat
  | _, 0 => st
  | i, fuel + 1 => sha1Rounds w (sha1Round i (w.getD i 0) st) (i + 1) fuel

/-- Compress one 64-byte SHA-1 block into the running state. -/
def sha1Block (h : Nat × Nat × Nat × Nat × Nat) (block : List Nat) :
    Nat × Nat × Nat × Nat × Nat :=
  let w := sha1Extend (words16 block) 64
  let (h0, h1, h2, h3, h4) := h
  let (a, b, c, d, e) := sha1Rounds w h 0 80
  ((h0 + a) % 4294967296, (h1 + b) % 4294967296, (h2 + c) % 4294967296,
   (h3 + d) % 4294967296, (h4 + e) % 4294967296)

/-- Fold the SHA-1 compression over successive 64-byte chunks. -/
def sha1Chunks (h : Nat × Nat × Nat × Nat × Nat) :
    Nat → List Nat → Nat × Nat × Nat × Nat × Nat
  | 0, _ => h
  | _, [] => h
  | fuel + 1, l => sha1Chunks (sha1Block h (l.take 64)) fuel (l.drop 64)

/-- Modelled from the spec: the 20-byte SHA-1 digest of a byte sequence. -/
def sha1 (msg : List Nat) : List Nat :=
  let p := sha1Pad msg
  let (h0, h1, h2, h3, h4) :=
    sha1Chunks (0x67452301, 0xefcdab89, 0x98badcfe, 0x10325476, 0xc3d2e1f0)
      (p.length / 64) p
  be4 h0 ++ be4 h1 ++ be4 h2 ++ be4 h3 ++ be4 h4

/-- The base64 alphabet. -/
def b64Alphabet : List Char :=
  "ABCDEFGHIJKLMNOPQRSTUVWXYZabcdefghijklmnopqrstuvwxyz0123456789+/".data

/-- Character for a 6-bit group. -/
def b64Char (i : Nat) : Char := b64Alphabet.getD i 'A'

/-- Modelled from the spec: `b64.h` is not under `src/`; the spec's external
interface is `base64_encode(bytes) -> text`, standard base64 with `=`
padding. -/
def b64encodeGo : List Nat → List Char
  | b0 :: b1 :: b2 :: rest =>
      b64Char (b0 >>> 2) :: b64Char (((b0 &&& 3) <<< 4) ||| (b1 >>> 4)) ::
      b64Char (((b1 &&& 15) <<< 2) ||| (b2 >>> 6)) :: b64Char (b2 &&& 63) ::
      b64encodeGo rest
  | [b0, b1] =>
      [b64Char (b0 >>> 2), b64Char (((b0 &&& 3) <<< 4) ||| (b1 >>> 4)),
       b64Char ((b1 &&& 15) <<< 2), '=']
  | [b0] =>
      [b64Char (b0 >>> 2), b64Char ((b0 &&& 3) <<< 4), '=', '=']
  | [] => []

/-- Base64 encoding of a byte list, as a string. -/
def b64encode (bs : List Nat) : String :=
  String.mk (b64encodeGo bs)

/-- The fixed magic GUID of the WebSocket handshake
(wsclient.cpp line 41). -/
def MAGIC_STRING : String := "258EAFA5-E914-47DA-95CA-C5AB0DC85B11"

/-- Byte values of an (ASCII) string. -/
def strBytes (s : String) : List Nat := s.data.map Char.toNat

/-- The accept value `b64encode(sha1(key + MAGIC_STRING))` that
`send_handshake` (wsclient.cpp line 564) demands of the server. -/
def expectedAccept (key : String) : String :=
  b64encode (sha1 (strBytes (key ++ MAGIC_STRING)))

/-- Does `pat` occur at the front of `s`?  Helper for modelling
`std::string::find`. -/
def strHeadMatch : List Char → List Char → Bool
  | _, [] => true
  | [], _ :: _ => false
  | c :: cs, p :: ps => c = p && strHeadMatch cs ps

/-- Index of the first occurrence of `pat` in `s`, if any. -/
def findIdx (pat : List Char) : List Char → Option Nat
  | [] => if pat.isEmpty then some 0 else none
  | c :: cs =>
      if strHeadMatch (c :: cs) pat then some 0
      else (findIdx pat cs).map (· + 1)

/-- `mess.find(pat, start)`: index of the first occurrence of `pat` at or
after `start`, `none` standing for `std::string::npos`. -/
def strFind (s pat : List Char) (start : Nat) : Option Nat :=
  (findIdx pat (s.drop start)).map (· + start)

/-- `mess.substr(pos, len)`, clamped to the end of the string like the C++
original. -/
def substr (s : List Char) (pos len : Nat) : List Char :=
  (s.drop pos).take len

/-- `std::map<string,string>::emplace` on an association list: insert only
when the key is not already present (the existing mapped value is kept). -/
def emplace (hs : List (String × String)) (k v : String) :
    List (String × String) :=
  if hs.any (fun p => p.1 = k) then hs else hs ++ [(k, v)]

/-- `headers.at(k)` / `headers.count(k) != 0` combined: the value mapped to
key `k`, if present.  Lookup is exact (case-sensitive), as for
`std::map<std::string, ...>`. -/
def mapAt (hs : List (String × String)) (k : String) : Option String :=
  (hs.find? (fun p => p.1 = k)).map (fun p => p.2)

/-- The header-collecting part of the response-parsing loop in
`send_handshake` (wsclient.cpp lines 496-532): the first CRLF-delimited line
is the status line; each further line is split at the first `": "` found from
the line start (searching, as the C++ does, to the end of the whole message)
and `emplace`d into the header map; the loop ends when no further CRLF is
found.  `nl`/`nl2` are the positions named in the source. -/
def parseHeadersGo (mess : List Char) : Nat → Bool → Option Nat → Nat →
    List (String × String) → List (String × String)
  | 0, _, _, _, hs => hs
  | fuel + 1, first, some nl, nl2, hs =>
      let hs' :=
        if first then hs
        else
          match strFind mess [':', ' '] nl2 with
          | none => hs
          | some colon =>
              emplace hs (String.mk (substr mess nl2 (colon - nl2)))
                (String.mk (substr mess (colon + 2) (nl - colon - 2)))
      parseHeadersGo mess fuel false (strFind mess ['\r', '\n'] (nl + 2))
        (nl + 2) hs'
  | _ + 1, _, none, _, hs => hs

/-- The headers extracted by `send_handshake` from one HTTP response. -/
def parseHeaders (mess : List Char) : List (String × String) :=
  parseHeadersGo mess (mess.length + 1) true (strFind mess ['\r', '\n'] 0) 0 []

/-- The post-101 validation of `send_handshake` (wsclient.cpp lines 561-565):
require `Upgrade`, `Connection` and `Sec-WebSocket-Accept` headers with
`Upgrade: websocket` and `Connection: Upgrade` (else
"Malformed response."), then require the accept header to equal
`b64encode(sha1(key + MAGIC_STRING))` (else
"Invalid value for Sec-WebSocket-Accept."). -/
def checkHandshake (headers : List (String × String)) (key : String) :
    Except String Unit :=
  if mapAt headers "Upgrade" = none ∨ mapAt headers "Connection" = none ∨
      mapAt headers "Sec-WebSocket-Accept" = none ∨
      mapAt headers "Upgrade" ≠ some "websocket" ∨
      mapAt headers "Connection" ≠ some "Upgrade" then
    Except.error "Malformed response."
  else if mapAt headers "Sec-WebSocket-Accept" ≠ some (expectedAccept key) then
    Except.error "Invalid value for Sec-WebSocket-Accept."
  else
    Except.ok ()

/-! Bridging lemmas between the C-style bit operations of the source and
ordinary arithmetic. -/

theorem and_shl_shr (n m k : Nat) : (n &&& (m <<< k)) >>> k = (n >>> k) &&& m := by
  apply Nat.eq_of_testBit_eq
  intro i
  simp [Nat.testBit_shiftRight, Nat.testBit_land, Nat.testBit_shiftLeft,
    Nat.le_add_right, Nat.add_sub_cancel_left]

theorem shr_and_255 (n k : Nat) : (n >>> k) &&& 255 = n / 2 ^ k % 256 := by
  rw [show (255 : Nat) = 2 ^ 8 - 1 by norm_num, Nat.and_pow_two_sub_one_eq_mod,
    Nat.shiftRight_eq_div_pow]

theorem shl8_or (a b : Nat) (hb : b < 256) : (a <<< 8) ||| b = a * 256 + b := by
  have hb8 : b < 2 ^ 8 := hb
  apply Nat.eq_of_testBit_eq
  intro i
  rw [show a * 256 + b = 2 ^ 8 * a + b by ring, Nat.testBit_mul_pow_two_add a hb8]
  simp only [Nat.testBit_lor, Nat.testBit_shiftLeft]
  by_cases h : i < 8
  · simp [h, Nat.not_le.mpr h]
  · have hb' : Nat.testBit b i = false :=
      Nat.testBit_lt_two_pow
        (lt_of_lt_of_le hb8 (Nat.pow_le_pow_right (by norm_num) (Nat.not_lt.mp h)))
    simp [h, Nat.not_lt.mp h, hb']

theorem and_two_pow_eq_zero {x i : Nat} (h : x < 2 ^ i) : x &&& 2 ^ i = 0 := by
  rw [Nat.and_two_pow, Nat.testBit_lt_two_pow h]
  simp

/-- Extracting one byte of `len` the way `client::send` does:
`(len & (0xff << k)) >> k` is `len / 2^k % 256`. -/
theorem sendByte_eq (len k : Nat) :
    (len &&& (255 <<< k)) >>> k = len / 2 ^ k % 256 := by
  rw [and_shl_shr, shr_and_255]

/-- The first header byte `0x80 | (opcode & 0xf)` decodes back to the opcode
under `& 0xf`. -/
theorem hdrByte0_opcode (op : Nat) (h : op < 16) :
    (0x80 ||| (op &&& 0xf)) &&& 0xf = op := by
  have h15 : op &&& 0xf = op := by
    rw [show (0xf : Nat) = 2 ^ 4 - 1 by norm_num, Nat.and_pow_two_sub_one_eq_mod]
    exact Nat.mod_eq_of_lt h
  rw [h15, Nat.and_distrib_right, h15, show (0x80 : Nat) &&& 0xf = 0 by decide]
  simp

/-- The FIN bit of the first header byte built by `client::send` is set. -/
theorem hdrByte0_fin (op : Nat) : (0x80 ||| (op &&& 0xf)) &&& 0x80 = 0x80 := by
  rw [Nat.and_distrib_right]
  have h1 : op &&& 0xf < 2 ^ 7 :=
    lt_of_le_of_lt Nat.and_le_right (by norm_num)
  have h2 : (op &&& 0xf) &&& 0x80 = 0 := and_two_pow_eq_zero h1
  rw [h2]
  rfl

/-- The single length byte `0x80 | len` (for `len <= 125`) has the mask bit
set and decodes back to `len` under `& 0x7f`. -/
theorem lenByte_small (len : Nat) (h : len ≤ 125) :
    (0x80 ||| len) &&& 0x7f = len ∧ (0x80 ||| len) &&& 0x80 = 0x80 := by
  have hlt : len < 2 ^ 7 := lt_of_le_of_lt h (by norm_num)
  have hsmall : len &&& 0x7f = len := by
    rw [show (0x7f : Nat) = 2 ^ 7 - 1 by norm_num, Nat.and_pow_two_sub_one_eq_mod]
    exact Nat.mod_eq_of_lt hlt
  have hbit : len &&& 0x80 = 0 := by
    have := and_two_pow_eq_zero hlt
    norm_num at this
    exact this
  constructor
  · rw [Nat.and_distrib_right, hsmall, show (0x80 : Nat) &&& 0x7f = 0 by decide]
    simp
  · rw [Nat.and_distrib_right, hbit, show (0x80 : Nat) &&& 0x80 = 0x80 by decide]
    rfl

/-! Behavior of the scripted socket reads. -/

theorem takeBytes_gets (j : Nat) (bs : List Nat) (tail : List SockItem)
    (h : j ≤ bs.length) :
    takeBytes j (bs.map SockItem.byte ++ tail) =
      (bs.take j, (bs.drop j).map SockItem.byte ++ tail) := by
  induction j generalizing bs with
  | zero => simp [takeBytes]
  | succ j ih =>
    cases bs with
    | nil => simp at h
    | cons b bs' =>
      simp only [List.map_cons, List.cons_append, takeBytes]
      rw [show (List.map SockItem.byte bs').append tail =
            List.map SockItem.byte bs' ++ tail from rfl,
        ih bs' (by simpa using h)]
      simp

theorem takeBytes_all (j : Nat) (bs : List Nat) (h : bs.length ≤ j) :
    takeBytes j (bs.map SockItem.byte ++ [SockItem.eof]) = (bs, [SockItem.eof]) := by
  induction bs generalizing j with
  | nil =>
    cases j with
    | zero => simp [takeBytes]
    | succ j => simp [takeBytes]
  | cons b bs' ih =>
    cases j with
    | zero => simp at h
    | succ j =>
      simp only [List.map_cons, List.cons_append, takeBytes]
      rw [show (List.map SockItem.byte bs').append [SockItem.eof] =
            List.map SockItem.byte bs' ++ [SockItem.eof] from rfl,
        ih j (by simpa using h)]

/-- A `client_pimpl::recv(k)` that finds at least `k` scripted bytes at the
front of the socket returns exactly those bytes. -/
theorem recv_script (k : Nat) (bs : List Nat) (tail : List SockItem)
    (hk : 0 < k) (h : k ≤ bs.length) :
    recv k (bs.map SockItem.byte ++ tail) =
      RecvOutcome.ok (bs.take k) ((bs.drop k).map SockItem.byte ++ tail) := by
  cases k with
  | zero => omega
  | succ k' =>
    cases bs with
    | nil => simp at h
    | cons b bs' =>
      have hk' : k' ≤ bs'.length := by simpa using h
      simp only [recv, recvGo, List.map_cons, List.cons_append, lowRecv]
      rw [if_neg k'.succ_ne_zero, Nat.add_sub_cancel,
        takeBytes_gets k' bs' tail hk']
      simp only [List.length_cons, List.length_take, Nat.min_eq_left hk']
      rw [if_pos (Nat.sub_self (k' + 1))]
      simp

/-- A `client_pimpl::recv(k)` that runs into end-of-stream before `k` bytes
arrive is a clean close: `open` is cleared and nothing is returned. -/
theorem recv_script_short (k : Nat) (bs : List Nat) (hk : 0 < k)
    (h : bs.length < k) :
    recv k (bs.map SockItem.byte ++ [SockItem.eof]) = RecvOutcome.closed := by
  cases k with
  | zero => omega
  | succ k' =>
    cases bs with
    | nil => simp [recv, recvGo, lowRecv]
    | cons b bs' =>
      have hb : bs'.length ≤ k' := by simp at h; omega
      simp only [recv, recvGo, List.map_cons, List.cons_append, lowRecv]
      rw [if_neg k'.succ_ne_zero, Nat.add_sub_cancel, takeBytes_all k' bs' hb]
      simp only [List.length_cons]
      rw [if_neg (by simp at h ⊢; omega)]

theorem recvE_script (k : Nat) (bs : List Nat) (tail : List SockItem)
    (hk : 0 < k) (h : k ≤ bs.length) :
    recvE k (bs.map SockItem.byte ++ tail) =
      Except.ok (bs.take k, (bs.drop k).map SockItem.byte ++ tail) := by
  rw [recvE, recv_script k bs tail hk h]

theorem recvE_short (k : Nat) (bs : List Nat) (hk : 0 < k)
    (h : bs.length < k) :
    recvE k (bs.map SockItem.byte ++ [SockItem.eof]) =
      Except.error FrameAbort.closed := by
  rw [recvE, recv_script_short k bs hk h]

theorem getD_zeros (j : Nat) : ([0, 0, 0, 0] : List Nat).getD j 0 = 0 := by
  rcases j with _ | _ | _ | _ | j <;> rfl

/-- XORing with the all-zero mask key leaves the payload unchanged. -/
theorem unmask_zero (p : List Nat) (i : Nat) : unmask [0, 0, 0, 0] i p = p := by
  induction p generalizing i with
  | nil => rfl
  | cons b rest ih =>
    rw [unmask, getD_zeros, Nat.xor_zero, ih]

theorem recvE_two (a b : Nat) (rest : List SockItem) :
    recvE 2 (SockItem.byte a :: SockItem.byte b :: rest) =
      Except.ok ([a, b], rest) := by
  have := recvE_script 2 [a, b] rest (by norm_num) (by simp)
  simpa using this

theorem recvE_mask4 (rest : List SockItem) :
    recvE 4 (SockItem.byte 0 :: SockItem.byte 0 :: SockItem.byte 0 ::
      SockItem.byte 0 :: rest) = Except.ok ([0, 0, 0, 0], rest) := by
  have := recvE_script 4 [0, 0, 0, 0] rest (by norm_num) (by simp)
  simpa using this

theorem recvE_exact (bs : List Nat) (tail : List SockItem) (h : bs ≠ []) :
    recvE bs.length (bs.map SockItem.byte ++ tail) = Except.ok (bs, tail) := by
  have := recvE_script bs.length bs tail
    (by cases bs with | nil => simp at h | cons x xs => simp) (le_refl _)
  simpa using this

theorem and_0xff (L : Nat) : L &&& 0xff = L % 256 := by
  rw [show (0xff : Nat) = 2 ^ 8 - 1 from by decide, Nat.and_pow_two_sub_one_eq_mod]

theorem sendByte8 (L : Nat) : (L &&& 0xff00) >>> 8 = L / 256 % 256 := by
  rw [show (0xff00 : Nat) = 255 <<< 8 from by decide, sendByte_eq]
  norm_num

theorem sendByte16 (L : Nat) : (L &&& 0xff0000) >>> 16 = L / 65536 % 256 := by
  rw [show (0xff0000 : Nat) = 255 <<< 16 from by decide, sendByte_eq]
  norm_num

theorem sendByte24 (L : Nat) : (L &&& 0xff000000) >>> 24 = L / 16777216 % 256 := by
  rw [show (0xff000000 : Nat) = 255 <<< 24 from by decide, sendByte_eq]
  norm_num

theorem sendByte32 (L : Nat) : (L &&& 0xff00000000) >>> 32 = L / 4294967296 % 256 := by
  rw [show (0xff00000000 : Nat) = 255 <<< 32 from by decide, sendByte_eq]
  norm_num

theorem sendByte40 (L : Nat) :
    (L &&& 0xff0000000000) >>> 40 = L / 1099511627776 % 256 := by
  rw [show (0xff0000000000 : Nat) = 255 <<< 40 from by decide, sendByte_eq]
  norm_num

theorem sendByte48 (L : Nat) :
    (L &&& 0xff000000000000) >>> 48 = L / 281474976710656 % 256 := by
  rw [show (0xff000000000000 : Nat) = 255 <<< 48 from by decide, sendByte_eq]
  norm_num

theorem sendByte56 (L : Nat) :
    (L &&& 0xff00000000000000) >>> 56 = L / 72057594037927936 % 256 := by
  rw [show (0xff00000000000000 : Nat) = 255 <<< 56 from by decide, sendByte_eq]
  norm_num

theorem shl8_or_mod (a b : Nat) : (a <<< 8) ||| (b % 256) = a * 256 + b % 256 :=
  shl8_or a (b % 256) (Nat.mod_lt _ (by norm_num))

/-- Round trip for frames whose payload fits the 1-byte length field. -/
theorem readFrame_send_small (op : Nat) (payload : List Nat)
    (tail : List SockItem) (hop : op < 16) (h1 : payload.length ≤ 125) :
    readFrame ((send op payload).map SockItem.byte ++ tail) =
      FrameResult.ok true op payload tail := by
  simp only [send, sendHeader, if_pos h1, List.cons_append, List.map_cons,
    List.nil_append, List.map_append]
  rw [readFrame]
  simp only [recvE_two, bind, Except.bind, List.getD, List.get?, Option.getD_some,
    (lenByte_small _ h1).1, (lenByte_small _ h1).2, hdrByte0_opcode op hop,
    hdrByte0_fin op]
  rw [if_neg (by omega : ¬ payload.length = 126),
    if_neg (by omega : ¬ payload.length = 127)]
  simp only [bind, Except.bind, show ((0x80 : Nat) != 0) = true from rfl,
    if_pos rfl, recvE_mask4, ite_true]
  rcases eq_or_ne payload ([] : List Nat) with hp | hp
  · subst hp
    simp [unmask_zero]
  · rw [if_neg (by simpa using hp)]
    simp only [bind, Except.bind, recvE_exact payload tail hp, ite_true,
      unmask_zero]

/-- Round trip for frames whose payload takes the 2-byte length field. -/
theorem readFrame_send_mid (op : Nat) (payload : List Nat)
    (tail : List SockItem) (hop : op < 16) (h1 : ¬ payload.length ≤ 125)
    (h2 : payload.length < 0x10000) :
    readFrame ((send op payload).map SockItem.byte ++ tail) =
      FrameResult.ok true op payload tail := by
  have hp : payload ≠ [] := by
    intro hnil
    rw [hnil] at h1
    simp at h1
  simp only [send, sendHeader, if_neg h1, if_pos h2, List.cons_append,
    List.map_cons, List.nil_append, List.map_append]
  rw [readFrame]
  simp only [recvE_two, bind, Except.bind, List.getD, List.get?, Option.getD_some,
    hdrByte0_opcode op hop, hdrByte0_fin op,
    show (0xfe : Nat) &&& 127 = 126 from by decide,
    show (0xfe : Nat) &&& 128 = 128 from by decide,
    reduceIte, sendByte8, and_0xff, shl8_or_mod]
  have hlen : payload.length / 256 % 256 * 256 + payload.length % 256 =
      payload.length := by omega
  simp only [hlen, show ((128 : Nat) != 0) = true from rfl, reduceIte,
    recvE_mask4, bind, Except.bind]
  have hlz : ¬ payload.length = 0 := by
    intro h0
    exact hp (List.length_eq_zero.mp h0)
  rw [if_neg hlz]
  simp only [bind, Except.bind, recvE_exact payload tail hp, unmask_zero]

/-- Round trip for frames whose payload takes the 8-byte length field. -/
theorem readFrame_send_big (op : Nat) (payload : List Nat)
    (tail : List SockItem) (hop : op < 16) (h2 : ¬ payload.length < 0x10000)
    (h64 : payload.length < 2 ^ 64) :
    readFrame ((send op payload).map SockItem.byte ++ tail) =
      FrameResult.ok true op payload tail := by
  have hp : payload ≠ [] := by
    intro hnil
    rw [hnil] at h2
    simp at h2
  have h1 : ¬ payload.length ≤ 125 := by omega
  simp only [send, sendHeader, if_neg h1, if_neg h2, List.cons_append,
    List.map_cons, List.nil_append, List.map_append]
  rw [readFrame]
  have hrecv8 := recvE_script 8
    [(payload.length &&& 0xff00000000000000) >>> 56,
     (payload.length &&& 0xff000000000000) >>> 48,
     (payload.length &&& 0xff0000000000) >>> 40,
     (payload.length &&& 0xff00000000) >>> 32,
     (payload.length &&& 0xff000000) >>> 24,
     (payload.length &&& 0xff0000) >>> 16,
     (payload.length &&& 0xff00) >>> 8,
     payload.length &&& 0xff]
    (SockItem.byte 0 :: SockItem.byte 0 :: SockItem.byte 0 :: SockItem.byte 0 ::
      (List.map SockItem.byte payload ++ tail)) (by norm_num) (by simp)
  simp only [List.map_cons, List.cons_append, List.map_nil, List.nil_append,
    List.take, List.drop, sendByte8, sendByte16, sendByte24, sendByte32,
    sendByte40, sendByte48, sendByte56, and_0xff] at hrecv8
  simp only [recvE_two, bind, Except.bind, List.getD, List.get?, Option.getD_some,
    hdrByte0_opcode op hop, hdrByte0_fin op,
    show (0xff : Nat) &&& 127 = 127 from by decide,
    show (0xff : Nat) &&& 128 = 128 from by decide,
    show (127 : Nat) = 126 ↔ False from by decide,
    reduceIte, hrecv8,
    sendByte8, sendByte16, sendByte24, sendByte32, sendByte40, sendByte48,
    sendByte56, and_0xff, shl8_or_mod]
  have hlen : ((((((payload.length / 72057594037927936 % 256 * 256 +
      payload.length / 281474976710656 % 256) * 256 +
      payload.length / 1099511627776 % 256) * 256 +
      payload.length / 4294967296 % 256) * 256 +
      payload.length / 16777216 % 256) * 256 +
      payload.length / 65536 % 256) * 256 +
      payload.length / 256 % 256) * 256 +
      payload.length % 256 = payload.length := by omega
  simp only [bind, Except.bind, List.getD, List.get?, Option.getD_some,
    shl8_or_mod, hlen, show ((128 : Nat) != 0) = true from rfl, reduceIte,
    recvE_mask4]
  have hlz : ¬ payload.length = 0 := by
    intro h0
    exact hp (List.length_eq_zero.mp h0)
  rw [if_neg hlz]
  simp only [bind, Except.bind, recvE_exact payload tail hp, unmask_zero]

theorem and_0xf_of_lt (op : Nat) (h : op < 16) : op &&& 0xf = op := by
  rw [show (0xf : Nat) = 2 ^ 4 - 1 from by decide, Nat.and_pow_two_sub_one_eq_mod]
  exact Nat.mod_eq_of_lt h

/-- Claim C3 counterexample: for payload length 0 the header built by
`client::send` is 6 bytes long (2 bytes of frame header plus the 4 zeroed
mask-key bytes), not 2, 4 or 10 as the claim states. -/
theorem claim_C3_counterexample :
    (sendHeader 1 0).length = 6 ∧ (sendHeader 1 0).length ≠ 2 ∧
    (sendHeader 1 0).length ≠ 4 ∧ (sendHeader 1 0).length ≠ 10 := by
  decide

/-- Claim C3 (amended): the header built by `client::send` is 6, 8 or 14
bytes: the first byte is `0x80` OR'd with the 4-bit opcode; for length <= 125
one length byte `0x80 ||| len` (mask bit set, literal length in the low 7
bits); for 126 <= length < 65536 the length byte `0xFE` followed by the
2-byte big-endian length; for length >= 65536 the length byte `0xFF`
followed by the 8-byte big-endian length; in every case four zeroed mask-key
bytes follow. -/
theorem claim_C3_header_amended (op len : Nat) (hop : op < 16) :
    (len ≤ 125 → sendHeader op len = [0x80 ||| op, 0x80 ||| len, 0, 0, 0, 0]) ∧
    (126 ≤ len → len < 65536 →
      sendHeader op len =
        [0x80 ||| op, 0xfe, len / 256, len % 256, 0, 0, 0, 0]) ∧
    (65536 ≤ len →
      sendHeader op len = [0x80 ||| op, 0xff] ++ be8 len ++ [0, 0, 0, 0]) := by
  refine ⟨fun h1 => ?_, fun h1 h2 => ?_, fun h1 => ?_⟩
  · simp only [sendHeader, if_pos h1, and_0xf_of_lt op hop]
  · simp only [sendHeader, if_neg (by omega : ¬ len ≤ 125),
      if_pos (show len < 0x10000 from h2), and_0xf_of_lt op hop, sendByte8,
      and_0xff]
    rw [Nat.mod_eq_of_lt (show len / 256 < 256 by omega)]
  · simp only [sendHeader, if_neg (by omega : ¬ len ≤ 125),
      if_neg (by omega : ¬ len < 0x10000), and_0xf_of_lt op hop, sendByte8,
      sendByte16, sendByte24, sendByte32, sendByte40, sendByte48, sendByte56,
      and_0xff, be8]
    simp

/-- Witness for claim C3 (amended): concrete headers in each width class. -/
theorem claim_C3_header_amended_witness :
    sendHeader 2 5 = [0x80 ||| 2, 0x80 ||| 5, 0, 0, 0, 0] ∧
    sendHeader 2 300 = [0x80 ||| 2, 0xfe, 300 / 256, 300 % 256, 0, 0, 0, 0] ∧
    sendHeader 2 65536 = [0x80 ||| 2, 0xff] ++ be8 65536 ++ [0, 0, 0, 0] :=
  ⟨(claim_C3_header_amended 2 5 (by decide)).1 (by decide),
   (claim_C3_header_amended 2 300 (by decide)).2.1 (by decide) (by decide),
   (claim_C3_header_amended 2 65536 (by decide)).2.2 (by decide)⟩

/-- Claim C4 counterexample: a single FIN=1 frame with the continuation
opcode (header `0x80 0x01`, payload byte 120) arriving on an empty
accumulation buffer is dispatched to the message handler with the
continuation opcode itself — continuation opcodes do reach the application
layer. -/
theorem claim_C4_counterexample :
    recvTask true [SockItem.byte 0x80, SockItem.byte 0x01, SockItem.byte 120,
        SockItem.eof] =
      [Event.handler [120] opcode_continuation, Event.disconn none] ∧
    Event.handler [120] opcode_continuation ∈
      recvTask true [SockItem.byte 0x80, SockItem.byte 0x01, SockItem.byte 120,
        SockItem.eof] := by
  decide

/-- Claim C4 (amended): the opcode of a dispatched message is the frame's own
opcode when the accumulation buffer is empty and the recorded pending opcode
otherwise (and non-final frames dispatch nothing); consequently the
continuation opcode reaches the message handler exactly when a FIN=1
continuation frame arrives on an empty buffer, or the buffer is non-empty but
no earlier FIN=0 frame recorded a non-invalid opcode. -/
theorem claim_C4_dispatch_opcode (lastOp : Nat) (buf : List Nat) (fin : Bool)
    (op : Nat) (payload : List Nat) :
    (reassembleStep lastOp buf fin op payload).2.map Prod.fst =
      if fin then some (if buf = [] then op else lastOp) else none := by
  cases fin with
  | false => simp [reassembleStep]
  | true =>
    rcases eq_or_ne buf ([] : List Nat) with hb | hb
    · subst hb
      simp [reassembleStep]
    · simp [reassembleStep, hb]

/-- Claim C5: the reassembler of `recv_thread` — a FIN=0 frame records its
opcode as pending when it is not `invalid` and appends its payload without
dispatching; a FIN=1 frame dispatches the pending opcode with
buffer + payload and clears the buffer when the buffer is non-empty, and
dispatches its own opcode and payload when the buffer is empty; and the
concrete sequence [FIN=0 text "Hel"], [FIN=0 continuation "lo "],
[FIN=1 continuation "World"] produces exactly one dispatched message, with
opcode `text` and payload "Hello World". -/
theorem claim_C5_reassembler :
    (∀ lastOp buf op p, reassembleStep lastOp buf false op p =
      ((if op ≠ opcode_invalid then op else lastOp, buf ++ p), none)) ∧
    (∀ lastOp buf op p, reassembleStep lastOp buf true op p =
      ((lastOp, []), some (if buf = [] then op else lastOp, buf ++ p))) ∧
    recvTask true
      (([0x01, 0x03] ++ strBytes "Hel" ++ [0x00, 0x03] ++ strBytes "lo " ++
        [0x80, 0x05] ++ strBytes "World").map SockItem.byte ++ [SockItem.eof]) =
      [Event.handler (strBytes "Hello World") opcode_text, Event.disconn none] := by
  refine ⟨fun lastOp buf op p => by simp [reassembleStep],
    fun lastOp buf op p => ?_, by decide⟩
  rcases eq_or_ne buf ([] : List Nat) with hb | hb
  · subst hb
    simp [reassembleStep]
  · simp [reassembleStep, hb]

/-- Claim C6: `parse_ws_message` on a ping with payload P (with a registered
message handler) emits exactly one outbound pong carrying the same payload P,
emits it before the message handler runs, and still forwards the ping to the
message handler; the connection stays open. -/
theorem claim_C6_ping (payload : List Nat) :
    parse_ws_message true opcode_ping payload =
      (true, [Event.send opcode_pong payload,
        Event.handler payload opcode_ping]) := by
  simp [parse_ws_message, opcode_ping, opcode_close, opcode_pong]

/-- Claim C7: a received close frame (header `0x88 0x00`) clears the open
flag, is not forwarded to the message handler, stops the receive loop (any
further scripted input, including a second close, is ignored), and the
disconnect handler is invoked exactly once, with no error. -/
theorem claim_C7_close (rest : List SockItem) :
    recvTask true (SockItem.byte 0x88 :: SockItem.byte 0x00 :: rest) =
      [Event.disconn none] := by
  have hrf : readFrame (SockItem.byte 0x88 :: SockItem.byte 0x00 :: rest) =
      FrameResult.ok true 8 [] rest := by
    rw [readFrame]
    simp [recvE_two, bind, Except.bind]
    decide
  simp only [recvTask, List.length_cons, recvThreadGo, hrf, reassembleStep,
    parse_ws_message]
  simp [opcode_close, opcode_invalid]

/-- Claim C8 counterexample: a connection-reset error from the transport is
not fatal in `client_pimpl::recv` — it is treated like a clean peer close
(`open = false`, empty result) and the disconnect callback receives no
error, contradicting "any other error result from the transport is fatal
... delivered as an error". -/
theorem claim_C8_counterexample :
    recv 2 [SockItem.rerr ErrCode.connReset] = RecvOutcome.closed ∧
    recvTask true [SockItem.rerr ErrCode.connReset] = [Event.disconn none] := by
  decide

/-- Claim C8 (amended): after the handshake, a zero-length transport read is
a clean peer close; a would-block error is not fatal (the read is retried);
a connection-reset error is also treated as a clean close, with no error
delivered; any other transport error is fatal — it ends the receive loop and
is delivered as an error via the disconnect callback. -/
theorem claim_C8_transport_errors (len n : Nat) (sock : List SockItem) :
    recv len (SockItem.eof :: sock) = RecvOutcome.closed ∧
    recv len (SockItem.rerr ErrCode.wouldBlock :: sock) = recv len sock ∧
    recv len (SockItem.rerr ErrCode.connReset :: sock) = RecvOutcome.closed ∧
    recv len (SockItem.rerr (ErrCode.other n) :: sock) =
      RecvOutcome.fatal (ErrCode.other n) ∧
    recvTask true (SockItem.rerr (ErrCode.other n) :: sock) =
      [Event.disconn (some (ErrCode.other n))] := by
  refine ⟨by simp [recv, recvGo, lowRecv], by simp [recv, recvGo, lowRecv],
    by simp [recv, recvGo, lowRecv], by simp [recv, recvGo, lowRecv], ?_⟩
  have hrf : readFrame (SockItem.rerr (ErrCode.other n) :: sock) =
      FrameResult.fatal (ErrCode.other n) := by
    rw [readFrame]
    simp [recvE, recv, recvGo, lowRecv, bind, Except.bind]
  simp only [recvTask, List.length_cons, recvThreadGo, hrf]
  simp

theorem mapAt_append_single (hs : List (String × String)) (k k2 v : String) :
    mapAt (hs ++ [(k2, v)]) k =
      match mapAt hs k with
      | some w => some w
      | none => if k2 = k then some v else none := by
  induction hs with
  | nil =>
    by_cases h : k2 = k <;> simp [mapAt, List.find?, h]
  | cons x hs ih =>
    by_cases hx : x.1 = k
    · simp [mapAt, List.find?, hx]
    · simpa [mapAt, List.find?, hx] using ih

theorem mapAt_none_any (hs : List (String × String)) (k : String) :
    mapAt hs k = none ↔ hs.any (fun p => p.1 = k) = false := by
  induction hs with
  | nil => simp [mapAt]
  | cons x hs ih =>
    by_cases hx : x.1 = k
    · simp [mapAt, List.find?, hx]
    · simp [mapAt, List.find?, hx, ih]

/-- Claim C9 (amended): on duplicate header names the value used is the
FIRST occurrence's value (`std::map::emplace` does not overwrite an existing
key), and header-name matching is case-sensitive (a differently-keyed
`emplace` never affects the lookup of `k`). -/
theorem claim_C9_amended (hs : List (String × String)) (k k' v w : String) :
    (mapAt hs k = none → mapAt (emplace hs k v) k = some v) ∧
    (mapAt hs k = some w → mapAt (emplace hs k v) k = some w) ∧
    (k ≠ k' → mapAt (emplace hs k' v) k = mapAt hs k) := by
  refine ⟨fun hnone => ?_, fun hsome => ?_, fun hne => ?_⟩
  · rw [emplace, if_neg (by rw [(mapAt_none_any hs k).mp hnone]; simp),
      mapAt_append_single, hnone]
    simp
  · have hany : hs.any (fun p => p.1 = k) = true := by
      by_contra hc
      rw [(mapAt_none_any hs k).mpr (Bool.eq_false_iff.mpr hc)] at hsome
      exact Option.noConfusion hsome
    rw [emplace, if_pos hany, hsome]
  · rw [emplace]
    by_cases hany : hs.any (fun p => p.1 = k') = true
    · rw [if_pos hany]
    · rw [if_neg hany, mapAt_append_single]
      cases hmk : mapAt hs k with
      | some w2 => rfl
      | none => simp [Ne.symm hne]

/-- Witness for claim C9 (amended): concrete lookups on a one-entry map. -/
theorem claim_C9_amended_witness :
    mapAt (emplace [("A", "1")] "B" "2") "B" = some "2" ∧
    mapAt (emplace [("A", "1")] "A" "2") "A" = some "1" ∧
    mapAt (emplace [("A", "1")] "a" "2") "A" = mapAt [("A", "1")] "A" :=
  ⟨(claim_C9_amended [("A", "1")] "B" "x" "2" "x").1 (by decide),
   (claim_C9_amended [("A", "1")] "A" "x" "2" "1").2.1 (by decide),
   (claim_C9_amended [("A", "1")] "A" "a" "2" "x").2.2 (by decide)⟩

/-- Claim C9 counterexample: parsing a response whose `Upgrade` header
appears twice yields the FIRST occurrence's value, not the last: the claim's
"last occurrence wins" is false on this code. -/
theorem claim_C9_counterexample :
    mapAt (parseHeaders
      "HTTP/1.1 101 S\r\nUpgrade: a\r\nUpgrade: b\r\n\r\n".data)
      "Upgrade" = some "a" ∧ ("a" : String) ≠ "b" := by
  decide


set_option maxRecDepth 1000000 in
/-- Claim C1: after a 101 status, `send_handshake` accepts only when the
`Sec-WebSocket-Accept` header equals `b64encode(sha1(key + MAGIC_STRING))`
(any mismatch throws, failing the connection attempt), and for the RFC 6455
example key `"dGhlIHNhbXBsZSBub25jZQ=="` the one accepted value is
`"s3pPLMBiTxaQ9kYGzzhZRbK+xOo="`. -/
theorem claim_C1_handshake_accept :
    (∀ headers key, checkHandshake headers key = Except.ok () →
      mapAt headers "Sec-WebSocket-Accept" = some (expectedAccept key)) ∧
    (∀ headers key v, mapAt headers "Sec-WebSocket-Accept" = some v →
      v ≠ expectedAccept key → checkHandshake headers key ≠ Except.ok ()) ∧
    expectedAccept "dGhlIHNhbXBsZSBub25jZQ==" = "s3pPLMBiTxaQ9kYGzzhZRbK+xOo=" := by
  refine ⟨fun headers key h => ?_, fun headers key v hv hne hok => ?_, by decide⟩
  · rw [checkHandshake] at h
    split_ifs at h with h1 h2
    exact not_not.mp h2
  · rw [checkHandshake] at hok
    split_ifs at hok with h1 h2
    have heq := not_not.mp h2
    rw [hv] at heq
    exact hne (Option.some.inj heq)

/-- Witness for claim C1: the RFC 6455 example key with its correct accept
value passes the check; the value "x" is rejected. -/
theorem claim_C1_handshake_accept_witness :
    mapAt [("Upgrade", "websocket"), ("Connection", "Upgrade"),
        ("Sec-WebSocket-Accept", "s3pPLMBiTxaQ9kYGzzhZRbK+xOo=")]
      "Sec-WebSocket-Accept" =
      some (expectedAccept "dGhlIHNhbXBsZSBub25jZQ==") ∧
    checkHandshake [("Upgrade", "websocket"), ("Connection", "Upgrade"),
        ("Sec-WebSocket-Accept", "x")] "dGhlIHNhbXBsZSBub25jZQ==" ≠
      Except.ok () := by
  constructor
  · apply claim_C1_handshake_accept.1
    have hacc : mapAt [("Upgrade", "websocket"), ("Connection", "Upgrade"),
        ("Sec-WebSocket-Accept", "s3pPLMBiTxaQ9kYGzzhZRbK+xOo=")]
        "Sec-WebSocket-Accept" =
        some (expectedAccept "dGhlIHNhbXBsZSBub25jZQ==") := by
      rw [claim_C1_handshake_accept.2.2]
      decide
    rw [checkHandshake, if_neg (by decide), if_neg (not_not.mpr hacc)]
  · apply claim_C1_handshake_accept.2.1 _ _ "x" (by decide)
    rw [claim_C1_handshake_accept.2.2]
    decide


theorem recvE_take_ok (k m : Nat) (bs : List Nat) (hk : 0 < k) (hkm : k ≤ m)
    (hkb : k ≤ bs.length) :
    recvE k ((bs.take m).map SockItem.byte ++ [SockItem.eof]) =
      Except.ok (bs.take k,
        ((bs.drop k).take (m - k)).map SockItem.byte ++ [SockItem.eof]) := by
  have h := recvE_script k (bs.take m) [SockItem.eof] hk
    (by simp [List.length_take]; omega)
  rw [h, List.take_take, Nat.min_eq_left hkm, List.drop_take]

theorem recvE_take_short (k m : Nat) (bs : List Nat) (hk : 0 < k)
    (h : m < k ∨ bs.length < k) :
    recvE k ((bs.take m).map SockItem.byte ++ [SockItem.eof]) =
      Except.error FrameAbort.closed :=
  recvE_short k (bs.take m) hk (by simp [List.length_take]; omega)

example (a b : Nat) (rest : List Nat) (m : Nat) (h : 2 ≤ m) :
    recvE 2 (((a :: b :: rest).take m).map SockItem.byte ++ [SockItem.eof]) =
      Except.ok ([a, b], (rest.take (m - 2)).map SockItem.byte ++ [SockItem.eof]) := by
  simpa using recvE_take_ok 2 m (a :: b :: rest) (by norm_num) h (by simp)


theorem recvE_take_two (a b : Nat) (rest : List Nat) (m : Nat) (h : 2 ≤ m) :
    recvE 2 (((a :: b :: rest).take m).map SockItem.byte ++ [SockItem.eof]) =
      Except.ok ([a, b], (rest.take (m - 2)).map SockItem.byte ++ [SockItem.eof]) := by
  simpa using recvE_take_ok 2 m (a :: b :: rest) (by norm_num) h (by simp)

theorem recvE_take_mask (rest : List Nat) (m : Nat) (h : 4 ≤ m) :
    recvE 4 (((0 :: 0 :: 0 :: 0 :: rest).take m).map SockItem.byte ++ [SockItem.eof]) =
      Except.ok ([0, 0, 0, 0],
        (rest.take (m - 4)).map SockItem.byte ++ [SockItem.eof]) := by
  simpa using recvE_take_ok 4 m (0 :: 0 :: 0 :: 0 :: rest) (by norm_num) h (by simp)

theorem readFrame_trunc_small (op : Nat) (payload : List Nat) (n : Nat)
    (h1 : payload.length ≤ 125) (hn : n < (send op payload).length) :
    readFrame (((send op payload).take n).map SockItem.byte ++ [SockItem.eof]) =
      FrameResult.closed := by
  simp only [send, sendHeader, if_pos h1, List.cons_append, List.nil_append] at hn ⊢
  have hn' : n < 6 + payload.length := by simp at hn; omega
  by_cases hn2 : n < 2
  · rw [readFrame, recvE_take_short 2 n _ (by norm_num) (Or.inl hn2)]
    rfl
  · push_neg at hn2
    rw [readFrame, recvE_take_two _ _ _ n hn2]
    simp only [bind, Except.bind, List.getD, List.get?, Option.getD_some,
      (lenByte_small _ h1).1, (lenByte_small _ h1).2, hdrByte0_fin op]
    rw [if_neg (by omega : ¬ payload.length = 126),
      if_neg (by omega : ¬ payload.length = 127)]
    simp only [bind, Except.bind, show ((0x80 : Nat) != 0) = true from rfl,
      if_pos rfl, ite_true]
    by_cases hn6 : n - 2 < 4
    · rw [recvE_take_short 4 (n - 2) _ (by norm_num) (Or.inl hn6)]
    · push_neg at hn6
      rw [recvE_take_mask _ (n - 2) hn6]
      simp only [bind, Except.bind]
      rw [if_neg (by omega : ¬ payload.length = 0),
        recvE_take_short payload.length (n - 2 - 4) payload (by omega)
          (Or.inl (by omega))]


theorem recvE_take_eight (a b c d e f g h : Nat) (rest : List Nat) (m : Nat)
    (hm : 8 ≤ m) :
    recvE 8 (((a :: b :: c :: d :: e :: f :: g :: h :: rest).take m).map
        SockItem.byte ++ [SockItem.eof]) =
      Except.ok ([a, b, c, d, e, f, g, h],
        (rest.take (m - 8)).map SockItem.byte ++ [SockItem.eof]) := by
  simpa using recvE_take_ok 8 m (a :: b :: c :: d :: e :: f :: g :: h :: rest)
    (by norm_num) hm (by simp)

theorem readFrame_trunc_mid (op : Nat) (payload : List Nat) (n : Nat)
    (h1 : ¬ payload.length ≤ 125) (h2 : payload.length < 0x10000)
    (hn : n < (send op payload).length) :
    readFrame (((send op payload).take n).map SockItem.byte ++ [SockItem.eof]) =
      FrameResult.closed := by
  simp only [send, sendHeader, if_neg h1, if_pos h2, List.cons_append,
    List.nil_append] at hn ⊢
  have hn' : n < 8 + payload.length := by simp at hn; omega
  by_cases hn2 : n < 2
  · rw [readFrame, recvE_take_short 2 n _ (by norm_num) (Or.inl hn2)]
    rfl
  · push_neg at hn2
    rw [readFrame, recvE_take_two _ _ _ n hn2]
    simp only [bind, Except.bind, List.getD, List.get?, Option.getD_some,
      hdrByte0_fin op, show (0xfe : Nat) &&& 127 = 126 from by decide,
      show (0xfe : Nat) &&& 128 = 128 from by decide, reduceIte]
    by_cases hn4 : n - 2 < 2
    · rw [recvE_take_short 2 (n - 2) _ (by norm_num) (Or.inl hn4)]
    · push_neg at hn4
      rw [recvE_take_two _ _ _ (n - 2) hn4]
      simp only [bind, Except.bind, List.getD, List.get?, Option.getD_some,
        sendByte8, and_0xff, shl8_or_mod]
      have hlen : payload.length / 256 % 256 * 256 + payload.length % 256 =
          payload.length := by omega
      simp only [hlen, show ((128 : Nat) != 0) = true from rfl, reduceIte]
      by_cases hn8 : n - 2 - 2 < 4
      · rw [recvE_take_short 4 (n - 2 - 2) _ (by norm_num) (Or.inl hn8)]
      · push_neg at hn8
        rw [recvE_take_mask _ (n - 2 - 2) hn8]
        simp only [bind, Except.bind]
        rw [if_neg (by omega : ¬ payload.length = 0),
          recvE_take_short payload.length (n - 2 - 2 - 4) payload (by omega)
            (Or.inl (by omega))]

theorem readFrame_trunc_big (op : Nat) (payload : List Nat) (n : Nat)
    (h2 : ¬ payload.length < 0x10000) (h64 : payload.length < 2 ^ 64)
    (hn : n < (send op payload).length) :
    readFrame (((send op payload).take n).map SockItem.byte ++ [SockItem.eof]) =
      FrameResult.closed := by
  have h1 : ¬ payload.length ≤ 125 := by omega
  simp only [send, sendHeader, if_neg h1, if_neg h2, List.cons_append,
    List.nil_append] at hn ⊢
  have hn' : n < 14 + payload.length := by simp at hn; omega
  by_cases hn2 : n < 2
  · rw [readFrame, recvE_take_short 2 n _ (by norm_num) (Or.inl hn2)]
    rfl
  · push_neg at hn2
    rw [readFrame, recvE_take_two _ _ _ n hn2]
    simp only [bind, Except.bind, List.getD, List.get?, Option.getD_some,
      hdrByte0_fin op, show (0xff : Nat) &&& 127 = 127 from by decide,
      show (0xff : Nat) &&& 128 = 128 from by decide,
      show (127 : Nat) = 126 ↔ False from by decide, reduceIte]
    by_cases hn10 : n - 2 < 8
    · rw [recvE_take_short 8 (n - 2) _ (by norm_num) (Or.inl hn10)]
    · push_neg at hn10
      rw [recvE_take_eight _ _ _ _ _ _ _ _ _ (n - 2) hn10]
      simp only [bind, Except.bind, List.getD, List.get?, Option.getD_some,
        sendByte8, sendByte16, sendByte24, sendByte32, sendByte40, sendByte48,
        sendByte56, and_0xff, shl8_or_mod]
      have hlen : ((((((payload.length / 72057594037927936 % 256 * 256 +
          payload.length / 281474976710656 % 256) * 256 +
          payload.length / 1099511627776 % 256) * 256 +
          payload.length / 4294967296 % 256) * 256 +
          payload.length / 16777216 % 256) * 256 +
          payload.length / 65536 % 256) * 256 +
          payload.length / 256 % 256) * 256 +
          payload.length % 256 = payload.length := by omega
      simp only [hlen, show ((128 : Nat) != 0) = true from rfl, reduceIte]
      by_cases hn14 : n - 2 - 8 < 4
      · rw [recvE_take_short 4 (n - 2 - 8) _ (by norm_num) (Or.inl hn14)]
      · push_neg at hn14
        rw [recvE_take_mask _ (n - 2 - 8) hn14]
        simp only [bind, Except.bind]
        rw [if_neg (by omega : ¬ payload.length = 0),
          recvE_take_short payload.length (n - 2 - 8 - 4) payload (by omega)
            (Or.inl (by omega))]


end ws
